import Mathlib

/-!
# Verification of the clime-slack core (src/slack.ts)

Shallow embedding of the three components of the core:

* the escaped-mention codec, classes `SlackUser` and `SlackChannel`, each
  with a `toString` renderer (a template literal) and a `cast` parser built
  on the regular expressions `^<@([^|]+)\|([^>]+)>$` and
  `^<#([^|]+)\|([^>]+)>$`;
* `SlackCommandContext`, whose constructor merges every entry of a raw field
  bag onto the context with `Object.assign` (recognized field name or not)
  and then derives `user` and `channel` from `user_id`/`user_name` and
  `channel_id`/`channel_name`, overwriting those two properties;
* the duck-typed recognizer `isSlackCommandResponse`, whose JavaScript
  evaluation (short-circuit `&&`/`||` returning operand values, `typeof`,
  `Array.isArray`, property access that throws on `null`/`undefined`) is
  made explicit.

Host-language strings are modelled as `List Char`; a string-typed slot that
may hold `undefined` is modelled as `Option (List Char)`.
-/

/-- Host-language strings, modelled as lists of characters. -/
abbrev Str := List Char

/-- A string-typed slot of the host language: `none` models `undefined`. -/
abbrev JStr := Option Str

/-- Template-literal interpolation of a possibly-undefined string value:
JavaScript prints `undefined` as the text `undefined`. -/
def jsInterp : JStr → Str
  | some s => s
  | none => "undefined".toList

/-- Class `SlackUser` of src/slack.ts: a user mention entity with readonly
`id` and `name`. -/
structure SlackUser where
  id : JStr
  name : JStr
deriving DecidableEq

/-- Class `SlackChannel` of src/slack.ts: a channel mention entity with
readonly `id` and `name`. -/
structure SlackChannel where
  id : JStr
  name : JStr
deriving DecidableEq

/-- Method `SlackUser.prototype.toString`: the template literal
producing the token of the shape open angle, at sign, id, pipe, name,
close angle. -/
def SlackUser.toString (u : SlackUser) : Str :=
  '<' :: '@' :: (jsInterp u.id ++ '|' :: (jsInterp u.name ++ ['>']))

/-- Method `SlackChannel.prototype.toString`: the template literal
producing the token of the shape open angle, hash sign, id, pipe, name,
close angle. -/
def SlackChannel.toString (c : SlackChannel) : Str :=
  '<' :: '#' :: (jsInterp c.id ++ '|' :: (jsInterp c.name ++ ['>']))

/-- Split a list at the first occurrence of character `c`: returns the part
before and the part after that occurrence, or `none` when `c` is absent. -/
def splitAtFirst (c : Char) : Str → Option (Str × Str)
  | [] => none
  | x :: xs =>
    if x = c then some ([], xs)
    else
      match splitAtFirst c xs with
      | some (a, b) => some (x :: a, b)
      | none => none

/-- Matching of the anchored regular expression used by `cast`:
caret, open angle, the sigil character, a one-or-more group excluding the
pipe, a literal pipe, a one-or-more group excluding the closing angle, a
literal closing angle, dollar. Returns the two capture groups on a match.
Since the first group excludes the pipe it necessarily ends at the first
pipe, and since the second group excludes the closing angle the literal
closing angle is the first one after that pipe and the dollar anchor
requires nothing to follow it. -/
def matchMention (sig : Char) : Str → Option (Str × Str)
  | c0 :: c1 :: rest =>
    if c0 = '<' ∧ c1 = sig then
      match splitAtFirst '|' rest with
      | some (g1, rest2) =>
        match splitAtFirst '>' rest2 with
        | some (g2, tail) =>
          if g1 = [] ∨ g2 = [] ∨ tail ≠ [] then none else some (g1, g2)
        | none => none
      | none => none
    else none
  | _ => none

/-- The single user-facing error kind raised by the core: the `ExpectedError`
of the clime framework, carrying a message (a validation error intended for
the command issuer, not a programming fault). -/
inductive SlackError where
  | expectedError (message : Str)
deriving DecidableEq

/-- Tail of the error message of `SlackUser.cast`. -/
def userSuffix : Str := " is not a valid escaped slack user".toList

/-- Tail of the error message of `SlackChannel.cast`. -/
def channelSuffix : Str := " is not a valid escaped slack channel".toList

/-- The message of the error thrown by `SlackUser.cast`: the input text in
double quotes followed by the explanation naming the user variant. -/
def userErrorMessage (text : Str) : Str :=
  '"' :: (text ++ '"' :: userSuffix)

/-- The message of the error thrown by `SlackChannel.cast`: the input text in
double quotes followed by the explanation naming the channel variant. -/
def channelErrorMessage (text : Str) : Str :=
  '"' :: (text ++ '"' :: channelSuffix)

/-- Static method `SlackUser.cast`: match the input against the user-mention
regular expression and build a `SlackUser` from the two capture groups, or
throw an `ExpectedError` naming the input and the user variant. -/
def SlackUser.cast (text : Str) : Except SlackError SlackUser :=
  match matchMention '@' text with
  | some (g1, g2) => .ok ⟨some g1, some g2⟩
  | none => .error (.expectedError (userErrorMessage text))

/-- Static method `SlackChannel.cast`: match the input against the
channel-mention regular expression and build a `SlackChannel` from the two
capture groups, or throw an `ExpectedError` naming the input and the
channel variant. -/
def SlackChannel.cast (text : Str) : Except SlackError SlackChannel :=
  match matchMention '#' text with
  | some (g1, g2) => .ok ⟨some g1, some g2⟩
  | none => .error (.expectedError (channelErrorMessage text))

/-- Options of the base clime `Context`; its contents configure the base
class only (command dispatch metadata), which is outside the core, so it is
kept abstract. -/
structure ContextOptions

/-- A raw field bag: a mapping from field names to string values, `none`
standing for an absent key. -/
abbrev FieldBag := Str → Option Str

def keyToken : Str := "token".toList
def keyTeamId : Str := "team_id".toList
def keyTeamDomain : Str := "team_domain".toList
def keyEnterpriseId : Str := "enterprise_id".toList
def keyEnterpriseName : Str := "enterprise_name".toList
def keyChannelId : Str := "channel_id".toList
def keyChannelName : Str := "channel_name".toList
def keyUserId : Str := "user_id".toList
def keyUserName : Str := "user_name".toList
def keyCommand : Str := "command".toList
def keyText : Str := "text".toList
def keyResponseUrl : Str := "response_url".toList
def keyTriggerId : Str := "trigger_id".toList
def keyAttachments : Str := "attachments".toList

/-- The recognized field names of `SlackCommandContext`, in declaration
order. -/
def recognizedKeys : List Str :=
  [keyToken, keyTeamId, keyTeamDomain, keyEnterpriseId, keyEnterpriseName,
   keyChannelId, keyChannelName, keyUserId, keyUserName, keyCommand,
   keyText, keyResponseUrl, keyTriggerId]

/-- Name of the derived `user` property, overwritten after the field merge. -/
def keyUser : Str := "user".toList

/-- Name of the derived `channel` property, overwritten after the field
merge. -/
def keyChannel : Str := "channel".toList

/-- Class `SlackCommandContext` of src/slack.ts, as the object that the
constructor leaves behind: `props` holds every string-valued own property
that `Object.assign` copied from the bag (recognized or not; reading an
unset name yields `undefined`), and `user` and `channel` hold the two
derived mention entities assigned last. -/
structure SlackCommandContext where
  props : Str → Option Str
  user : SlackUser
  channel : SlackChannel

/-- Declared field `token`: a read of the property of that name. -/
def SlackCommandContext.token (c : SlackCommandContext) : JStr := c.props keyToken

/-- Declared field `team_id`: a read of the property of that name. -/
def SlackCommandContext.team_id (c : SlackCommandContext) : JStr := c.props keyTeamId

/-- Declared field `team_domain`: a read of the property of that name. -/
def SlackCommandContext.team_domain (c : SlackCommandContext) : JStr := c.props keyTeamDomain

/-- Declared field `enterprise_id`: a read of the property of that name. -/
def SlackCommandContext.enterprise_id (c : SlackCommandContext) : JStr := c.props keyEnterpriseId

/-- Declared field `enterprise_name`: a read of the property of that name. -/
def SlackCommandContext.enterprise_name (c : SlackCommandContext) : JStr := c.props keyEnterpriseName

/-- Declared field `channel_id`: a read of the property of that name. -/
def SlackCommandContext.channel_id (c : SlackCommandContext) : JStr := c.props keyChannelId

/-- Declared field `channel_name`: a read of the property of that name. -/
def SlackCommandContext.channel_name (c : SlackCommandContext) : JStr := c.props keyChannelName

/-- Declared field `user_id`: a read of the property of that name. -/
def SlackCommandContext.user_id (c : SlackCommandContext) : JStr := c.props keyUserId

/-- Declared field `user_name`: a read of the property of that name. -/
def SlackCommandContext.user_name (c : SlackCommandContext) : JStr := c.props keyUserName

/-- Declared field `command`: a read of the property of that name. -/
def SlackCommandContext.command (c : SlackCommandContext) : JStr := c.props keyCommand

/-- Declared field `text`: a read of the property of that name. -/
def SlackCommandContext.text (c : SlackCommandContext) : JStr := c.props keyText

/-- Declared field `response_url`: a read of the property of that name. -/
def SlackCommandContext.response_url (c : SlackCommandContext) : JStr := c.props keyResponseUrl

/-- Declared field `trigger_id`: a read of the property of that name. -/
def SlackCommandContext.trigger_id (c : SlackCommandContext) : JStr := c.props keyTriggerId

/-- The constructor of `SlackCommandContext`: `super(options)` initializes
only base-class state (not modelled), then `Object.assign` copies EVERY
enumerable entry of the bag onto the context - recognized field or not -
and finally `user` and `channel` are derived from the just-copied
`user_id`/`user_name` and `channel_id`/`channel_name` and assigned,
overwriting any bag entry under those two names (hence the string-valued
properties exclude them). -/
def SlackCommandContext.make (_opts : ContextOptions) (bag : FieldBag) :
    SlackCommandContext where
  props := fun k => if k = keyUser ∨ k = keyChannel then none else bag k
  user := ⟨bag keyUserId, bag keyUserName⟩
  channel := ⟨bag keyChannelId, bag keyChannelName⟩

/-- Untyped host-language values, as far as the recognizer can observe them:
`undefined`, `null`, booleans, numbers, strings, arrays and plain objects
(association lists of named attributes). -/
inductive JSValue where
  | undefined
  | null
  | bool (b : Bool)
  | num (n : Int)
  | str (s : Str)
  | arr (elems : List JSValue)
  | obj (fields : List (Str × JSValue))

instance : Inhabited JSValue := ⟨JSValue.undefined⟩

/-- Truthiness of a host-language value: `undefined`, `null`, `false`, zero
and the empty string are falsy, everything else is truthy. -/
def truthy : JSValue → Bool
  | .undefined => false
  | .null => false
  | .bool b => b
  | .num n => decide (n ≠ 0)
  | .str s => decide (s ≠ [])
  | .arr _ => true
  | .obj _ => true

/-- Result of the `typeof` operator. Note that `typeof null` is the string
`object`, as are arrays and plain objects. -/
def typeof : JSValue → Str
  | .undefined => "undefined".toList
  | .null => "object".toList
  | .bool _ => "boolean".toList
  | .num _ => "number".toList
  | .str _ => "string".toList
  | .arr _ => "object".toList
  | .obj _ => "object".toList

/-- Attribute lookup in an object's field list; a missing attribute reads as
`undefined`. -/
def lookupProp : List (Str × JSValue) → Str → JSValue
  | [], _ => .undefined
  | (k, v) :: rest, key => if k = key then v else lookupProp rest key

/-- Property access `o[key]`: throws (modelled as `none`) on `null` and
`undefined`; reads the attribute on an object; yields `undefined` for the
attributes `text` and `attachments` on every other kind of value. -/
def getProp : JSValue → Str → Option JSValue
  | .undefined, _ => none
  | .null, _ => none
  | .obj fields, key => some (lookupProp fields key)
  | _, _ => some .undefined

/-- Whether `Array.isArray` holds of a value. -/
def JSValue.isArr : JSValue → Bool
  | .arr _ => true
  | _ => false

/-- Function `isSlackCommandResponse` of src/slack.ts, with the JavaScript
evaluation of its body made explicit: the expression
`object && typeof object === 'object' && (typeof object.text === 'string' || Array.isArray(object.attachments))`
returns its first falsy operand (the input itself when the input is falsy),
otherwise the boolean value of the parenthesized disjunction; property
access happens only behind the truthiness and `typeof` guards, and would
throw (modelled as `none`) on `null` or `undefined`. -/
def isSlackCommandResponse (o : JSValue) : Option JSValue :=
  if truthy o then
    if typeof o = "object".toList then
      match getProp o keyText with
      | none => none
      | some t =>
        if typeof t = "string".toList then some (.bool true)
        else
          match getProp o keyAttachments with
          | none => none
          | some a => some (.bool a.isArr)
    else some (.bool false)
  else some o

/-- One string occurs inside another (as a contiguous run of characters). -/
def occursIn (pat s : Str) : Prop := ∃ p q, s = p ++ (pat ++ q)

/-! ## Helper lemmas about the regular-expression match -/

theorem splitAtFirst_eq_some {c : Char} :
    ∀ {s a b : Str}, splitAtFirst c s = some (a, b) → s = a ++ c :: b ∧ c ∉ a := by
  intro s
  induction s with
  | nil => intro a b h; simp [splitAtFirst] at h
  | cons x xs ih =>
    intro a b h
    simp only [splitAtFirst] at h
    by_cases hx : x = c
    · rw [if_pos hx] at h
      obtain ⟨ha, hb⟩ := Prod.mk.injEq .. ▸ Option.some.inj h
      subst hx
      rw [← ha, ← hb]
      simp
    · rw [if_neg hx] at h
      cases hs : splitAtFirst c xs with
      | none => rw [hs] at h; exact absurd h (by simp)
      | some p =>
        obtain ⟨a', b'⟩ := p
        rw [hs] at h
        obtain ⟨ha, hb⟩ := Prod.mk.injEq .. ▸ Option.some.inj h
        obtain ⟨hxs, hc⟩ := ih hs
        rw [← ha, ← hb, hxs]
        refine ⟨by simp, ?_⟩
        simp only [List.mem_cons]
        push_neg
        exact ⟨fun hh => hx hh.symm, hc⟩

theorem splitAtFirst_append {c : Char} :
    ∀ {a : Str}, c ∉ a → ∀ b, splitAtFirst c (a ++ c :: b) = some (a, b) := by
  intro a
  induction a with
  | nil => intro _ b; simp [splitAtFirst]
  | cons x xs ih =>
    intro h b
    have hx : x ≠ c := fun hh => h (by rw [hh]; exact List.mem_cons_self c xs)
    have h' : c ∉ xs := fun hh => h (List.mem_cons_of_mem _ hh)
    simp only [List.cons_append, splitAtFirst, List.append_eq]
    rw [if_neg hx, ih h' b]

theorem matchMention_eq_some {sig : Char} {text g1 g2 : Str} :
    matchMention sig text = some (g1, g2) ↔
      text = '<' :: sig :: (g1 ++ '|' :: (g2 ++ ['>'])) ∧
        g1 ≠ [] ∧ '|' ∉ g1 ∧ g2 ≠ [] ∧ '>' ∉ g2 := by
  constructor
  · intro h
    rcases text with _ | ⟨c0, _ | ⟨c1, rest⟩⟩
    · simp [matchMention] at h
    · simp [matchMention] at h
    · simp only [matchMention] at h
      split at h
      case isFalse => exact absurd h (by simp)
      case isTrue hc =>
        obtain ⟨hc0, hc1⟩ := hc
        split at h
        case h_2 => exact absurd h (by simp)
        case h_1 a rest2 h1 =>
          split at h
          case h_2 => exact absurd h (by simp)
          case h_1 b tail h2 =>
            split at h
            case isTrue => exact absurd h (by simp)
            case isFalse hcond =>
              push_neg at hcond
              obtain ⟨ha, hb, ht⟩ := hcond
              obtain ⟨hg1, hg2⟩ := Prod.mk.injEq .. ▸ Option.some.inj h
              obtain ⟨hrest, hna⟩ := splitAtFirst_eq_some h1
              obtain ⟨hrest2, hnb⟩ := splitAtFirst_eq_some h2
              subst hg1
              subst hg2
              subst ht
              refine ⟨?_, ha, hna, hb, hnb⟩
              rw [hc0, hc1, hrest, hrest2]
  · rintro ⟨htext, hg1ne, hpg1, hg2ne, hng2⟩
    subst htext
    have e1 : splitAtFirst '|' (g1 ++ '|' :: (g2 ++ ['>'])) = some (g1, g2 ++ ['>']) :=
      splitAtFirst_append hpg1 _
    have e2 : splitAtFirst '>' (g2 ++ ['>']) = some (g2, []) := splitAtFirst_append hng2 []
    simp [matchMention, e1, e2, hg1ne, hg2ne]

theorem user_cast_eq_ok {text : Str} {u : SlackUser} :
    SlackUser.cast text = .ok u ↔
      ∃ g1 g2, matchMention '@' text = some (g1, g2) ∧ u = ⟨some g1, some g2⟩ := by
  cases h : matchMention '@' text with
  | none =>
    simp only [SlackUser.cast, h]
    constructor
    · intro hh; exact absurd hh (by simp)
    · rintro ⟨g1, g2, hx, _⟩; exact absurd hx (by simp)
  | some p =>
    obtain ⟨g1, g2⟩ := p
    simp only [SlackUser.cast, h]
    constructor
    · intro hh
      exact ⟨g1, g2, rfl, (Except.ok.inj hh).symm⟩
    · rintro ⟨g1', g2', hx, hu⟩
      obtain ⟨h1, h2⟩ := Prod.mk.injEq .. ▸ Option.some.inj hx
      rw [hu, ← h1, ← h2]

theorem channel_cast_eq_ok {text : Str} {c : SlackChannel} :
    SlackChannel.cast text = .ok c ↔
      ∃ g1 g2, matchMention '#' text = some (g1, g2) ∧ c = ⟨some g1, some g2⟩ := by
  cases h : matchMention '#' text with
  | none =>
    simp only [SlackChannel.cast, h]
    constructor
    · intro hh; exact absurd hh (by simp)
    · rintro ⟨g1, g2, hx, _⟩; exact absurd hx (by simp)
  | some p =>
    obtain ⟨g1, g2⟩ := p
    simp only [SlackChannel.cast, h]
    constructor
    · intro hh
      exact ⟨g1, g2, rfl, (Except.ok.inj hh).symm⟩
    · rintro ⟨g1', g2', hx, hu⟩
      obtain ⟨h1, h2⟩ := Prod.mk.injEq .. ▸ Option.some.inj hx
      rw [hu, ← h1, ← h2]

theorem user_cast_token {a b : Str} (ha : a ≠ []) (hpa : '|' ∉ a)
    (hb : b ≠ []) (hnb : '>' ∉ b) :
    SlackUser.cast ('<' :: '@' :: (a ++ '|' :: (b ++ ['>']))) = .ok ⟨some a, some b⟩ := by
  have hm : matchMention '@' ('<' :: '@' :: (a ++ '|' :: (b ++ ['>']))) = some (a, b) :=
    matchMention_eq_some.mpr ⟨rfl, ha, hpa, hb, hnb⟩
  simp [SlackUser.cast, hm]

theorem channel_cast_token {a b : Str} (ha : a ≠ []) (hpa : '|' ∉ a)
    (hb : b ≠ []) (hnb : '>' ∉ b) :
    SlackChannel.cast ('<' :: '#' :: (a ++ '|' :: (b ++ ['>']))) = .ok ⟨some a, some b⟩ := by
  have hm : matchMention '#' ('<' :: '#' :: (a ++ '|' :: (b ++ ['>']))) = some (a, b) :=
    matchMention_eq_some.mpr ⟨rfl, ha, hpa, hb, hnb⟩
  simp [SlackChannel.cast, hm]

/-! ## Claim theorems -/

/-- C5: for every id and name, encoding a user mention yields exactly the
token open angle, at sign, id, pipe, name, close angle, and encoding a
channel mention yields exactly the same with the hash sign, with no escaping
of id or name; in particular encoding the user mention with id U123 and name
bob yields exactly the text of the token at U123 pipe bob. -/
theorem encode_exact (id name : Str) :
    SlackUser.toString ⟨some id, some name⟩ =
      '<' :: '@' :: (id ++ '|' :: (name ++ ['>'])) ∧
    SlackChannel.toString ⟨some id, some name⟩ =
      '<' :: '#' :: (id ++ '|' :: (name ++ ['>'])) ∧
    SlackUser.toString ⟨some ("U123".toList), some ("bob".toList)⟩ = "<@U123|bob>".toList :=
  ⟨rfl, rfl, rfl⟩

/-- C4: for every field bag, the constructed context's derived user and
channel mentions are consistent projections of the raw fields (user id and
name equal the user_id and user_name fields, and symmetrically for the
channel), and every recognized field equals its bag value verbatim; in
particular the bag with user_id U9, user_name carol, channel_id C2 and
channel_name eng derives exactly those two mentions. -/
theorem context_projection (opts : ContextOptions) (bag : FieldBag) :
    ((SlackCommandContext.make opts bag).user.id =
        (SlackCommandContext.make opts bag).user_id ∧
      (SlackCommandContext.make opts bag).user.name =
        (SlackCommandContext.make opts bag).user_name ∧
      (SlackCommandContext.make opts bag).channel.id =
        (SlackCommandContext.make opts bag).channel_id ∧
      (SlackCommandContext.make opts bag).channel.name =
        (SlackCommandContext.make opts bag).channel_name) ∧
    ((SlackCommandContext.make opts bag).token = bag keyToken ∧
      (SlackCommandContext.make opts bag).team_id = bag keyTeamId ∧
      (SlackCommandContext.make opts bag).team_domain = bag keyTeamDomain ∧
      (SlackCommandContext.make opts bag).enterprise_id = bag keyEnterpriseId ∧
      (SlackCommandContext.make opts bag).enterprise_name = bag keyEnterpriseName ∧
      (SlackCommandContext.make opts bag).channel_id = bag keyChannelId ∧
      (SlackCommandContext.make opts bag).channel_name = bag keyChannelName ∧
      (SlackCommandContext.make opts bag).user_id = bag keyUserId ∧
      (SlackCommandContext.make opts bag).user_name = bag keyUserName ∧
      (SlackCommandContext.make opts bag).command = bag keyCommand ∧
      (SlackCommandContext.make opts bag).text = bag keyText ∧
      (SlackCommandContext.make opts bag).response_url = bag keyResponseUrl ∧
      (SlackCommandContext.make opts bag).trigger_id = bag keyTriggerId) ∧
    ((SlackCommandContext.make opts (fun k =>
        if k = keyUserId then some ("U9".toList)
        else if k = keyUserName then some ("carol".toList)
        else if k = keyChannelId then some ("C2".toList)
        else if k = keyChannelName then some ("eng".toList)
        else none)).user = ⟨some ("U9".toList), some ("carol".toList)⟩ ∧
      (SlackCommandContext.make opts (fun k =>
        if k = keyUserId then some ("U9".toList)
        else if k = keyUserName then some ("carol".toList)
        else if k = keyChannelId then some ("C2".toList)
        else if k = keyChannelName then some ("eng".toList)
        else none)).channel = ⟨some ("C2".toList), some ("eng".toList)⟩) :=
  ⟨⟨rfl, rfl, rfl, rfl⟩,
   ⟨rfl, rfl, rfl, rfl, rfl, rfl, rfl, rfl, rfl, rfl, rfl, rfl, rfl⟩,
   rfl, rfl⟩

/-- C1 (amended): for all non-empty ids and names containing none of the
three delimiter characters (open angle, close angle, pipe), parsing the
encoded rendering of a mention with the parser of the same variant returns
a mention equal to the original. Non-emptiness cannot be dropped: see the
counterexample with the empty id. -/
theorem mention_roundtrip (id name : Str)
    (hid : id ≠ []) (hname : name ≠ [])
    (_hidLt : '<' ∉ id) (_hidGt : '>' ∉ id) (hidPipe : '|' ∉ id)
    (_hnameLt : '<' ∉ name) (hnameGt : '>' ∉ name) (_hnamePipe : '|' ∉ name) :
    SlackUser.cast (SlackUser.toString ⟨some id, some name⟩) = .ok ⟨some id, some name⟩ ∧
    SlackChannel.cast (SlackChannel.toString ⟨some id, some name⟩) =
      .ok ⟨some id, some name⟩ := by
  refine ⟨?_, ?_⟩
  · have h : SlackUser.toString ⟨some id, some name⟩ =
        '<' :: '@' :: (id ++ '|' :: (name ++ ['>'])) := rfl
    rw [h]
    exact user_cast_token hid hidPipe hname hnameGt
  · have h : SlackChannel.toString ⟨some id, some name⟩ =
        '<' :: '#' :: (id ++ '|' :: (name ++ ['>'])) := rfl
    rw [h]
    exact channel_cast_token hid hidPipe hname hnameGt

/-- C1 fails as stated: the empty string contains none of the three
delimiter characters, yet the round trip of the user mention with empty id
and name a (and likewise with id a and empty name) does not return the
original mention, because the rendered token has a zero-length segment and
the parser rejects it. -/
theorem mention_roundtrip_counterexample :
    SlackUser.cast (SlackUser.toString ⟨some [], some ['a']⟩) ≠
        .ok ⟨some [], some ['a']⟩ ∧
      SlackUser.cast (SlackUser.toString ⟨some ['a'], some []⟩) ≠
        .ok ⟨some ['a'], some []⟩ :=
  ⟨fun h => Except.noConfusion h, fun h => Except.noConfusion h⟩

/-- Witness for the amended round trip at id U1 and name alice. -/
theorem mention_roundtrip_witness :
    SlackUser.cast (SlackUser.toString ⟨some ("U1".toList), some ("alice".toList)⟩) =
      .ok ⟨some ("U1".toList), some ("alice".toList)⟩ ∧
    SlackChannel.cast (SlackChannel.toString ⟨some ("U1".toList), some ("alice".toList)⟩) =
      .ok ⟨some ("U1".toList), some ("alice".toList)⟩ :=
  mention_roundtrip ("U1".toList) ("alice".toList) (by decide) (by decide) (by decide)
    (by decide) (by decide) (by decide) (by decide) (by decide)

/-- C2: for every input text, the user parser succeeds with a given mention
iff the text is exactly the anchored token open angle, at sign, a non-empty
segment without a pipe (the id), a pipe, a non-empty segment without a close
angle (the name), a close angle, and the mention carries those two segments;
symmetrically for the channel parser with the hash sign. In particular a
zero-length id or name segment, a token embedded in surrounding text, or a
token with the other variant's sigil is rejected. -/
theorem parse_characterization (text : Str) :
    (∀ u : SlackUser, SlackUser.cast text = .ok u ↔
        ∃ id name, text = '<' :: '@' :: (id ++ '|' :: (name ++ ['>'])) ∧
          id ≠ [] ∧ '|' ∉ id ∧ name ≠ [] ∧ '>' ∉ name ∧ u = ⟨some id, some name⟩) ∧
    (∀ c : SlackChannel, SlackChannel.cast text = .ok c ↔
        ∃ id name, text = '<' :: '#' :: (id ++ '|' :: (name ++ ['>'])) ∧
          id ≠ [] ∧ '|' ∉ id ∧ name ≠ [] ∧ '>' ∉ name ∧ c = ⟨some id, some name⟩) := by
  constructor
  · intro u
    rw [user_cast_eq_ok]
    constructor
    · rintro ⟨g1, g2, hm, hu⟩
      obtain ⟨ht, h1, h2, h3, h4⟩ := matchMention_eq_some.mp hm
      exact ⟨g1, g2, ht, h1, h2, h3, h4, hu⟩
    · rintro ⟨id, name, ht, h1, h2, h3, h4, hu⟩
      exact ⟨id, name, matchMention_eq_some.mpr ⟨ht, h1, h2, h3, h4⟩, hu⟩
  · intro c
    rw [channel_cast_eq_ok]
    constructor
    · rintro ⟨g1, g2, hm, hu⟩
      obtain ⟨ht, h1, h2, h3, h4⟩ := matchMention_eq_some.mp hm
      exact ⟨g1, g2, ht, h1, h2, h3, h4, hu⟩
    · rintro ⟨id, name, ht, h1, h2, h3, h4, hu⟩
      exact ⟨id, name, matchMention_eq_some.mpr ⟨ht, h1, h2, h3, h4⟩, hu⟩

/-- C10: the parser's name segment may itself contain pipes and its id
segment may contain angle brackets: for any id segment A, non-empty and
without a pipe, and name segment B, non-empty and without a close angle,
parsing the token built from them succeeds with id A and name B, with no
further restriction on the characters of A and B; in particular parsing the
user token at U1 pipe a pipe b yields id U1 and name a pipe b. -/
theorem segment_characters (a b : Str) (ha : a ≠ []) (hpa : '|' ∉ a)
    (hb : b ≠ []) (hnb : '>' ∉ b) :
    SlackUser.cast ('<' :: '@' :: (a ++ '|' :: (b ++ ['>']))) = .ok ⟨some a, some b⟩ ∧
    SlackChannel.cast ('<' :: '#' :: (a ++ '|' :: (b ++ ['>']))) = .ok ⟨some a, some b⟩ ∧
    SlackUser.cast ("<@U1|a|b>".toList) = .ok ⟨some ("U1".toList), some ("a|b".toList)⟩ :=
  ⟨user_cast_token ha hpa hb hnb, channel_cast_token ha hpa hb hnb, rfl⟩

/-- Witness for the segment-character theorem at id U1 and name a pipe b. -/
theorem segment_characters_witness :
    SlackUser.cast ('<' :: '@' :: ("U1".toList ++ '|' :: ("a|b".toList ++ ['>']))) =
      .ok ⟨some ("U1".toList), some ("a|b".toList)⟩ :=
  (segment_characters ("U1".toList) ("a|b".toList) (by decide) (by decide)
    (by decide) (by decide)).1

/-! ## Helper lemmas about the recognizer -/

theorem isSlackCommandResponse_obj (fields : List (Str × JSValue)) :
    isSlackCommandResponse (.obj fields) =
      (if typeof (lookupProp fields keyText) = "string".toList then some (.bool true)
       else some (.bool (lookupProp fields keyAttachments).isArr)) := rfl

theorem JSValue.isArr_iff {v : JSValue} : v.isArr = true ↔ ∃ l, v = .arr l := by
  cases v <;> simp [JSValue.isArr]

theorem typeof_eq_string_iff {v : JSValue} :
    typeof v = "string".toList ↔ ∃ s, v = .str s := by
  cases v <;> simp [typeof]

theorem isSlackCommandResponse_total (o : JSValue) :
    (truthy o = false ∧ isSlackCommandResponse o = some o) ∨
      (truthy o = true ∧ (isSlackCommandResponse o = some (.bool true) ∨
        isSlackCommandResponse o = some (.bool false))) := by
  have hno : ¬("number".toList = "object".toList) := by decide
  have hso : ¬("string".toList = "object".toList) := by decide
  cases o with
  | undefined => exact .inl ⟨rfl, rfl⟩
  | null => exact .inl ⟨rfl, rfl⟩
  | bool b =>
    cases b
    · exact .inl ⟨rfl, rfl⟩
    · exact .inr ⟨rfl, .inr rfl⟩
  | num n =>
    by_cases hn : n = 0
    · subst hn; exact .inl ⟨rfl, rfl⟩
    · refine .inr ⟨by simp [truthy, hn], .inr ?_⟩
      simp [isSlackCommandResponse, truthy, typeof, hn, hno]
  | str s =>
    by_cases hs : s = []
    · subst hs; exact .inl ⟨rfl, rfl⟩
    · refine .inr ⟨by simp [truthy, hs], .inr ?_⟩
      simp [isSlackCommandResponse, truthy, typeof, hs, hso]
  | arr l => exact .inr ⟨rfl, .inr rfl⟩
  | obj fields =>
    refine .inr ⟨rfl, ?_⟩
    by_cases h : typeof (lookupProp fields keyText) = "string".toList
    · exact .inl (by rw [isSlackCommandResponse_obj, if_pos h])
    · rw [isSlackCommandResponse_obj, if_neg h]
      cases hb : (lookupProp fields keyAttachments).isArr with
      | false => exact .inr rfl
      | true => exact .inl rfl

/-- C3: the recognizer returns the boolean true exactly when the value is a
non-null structured (key/value) object whose text attribute is present with
string kind, or whose attachments attribute is present as an ordered
sequence (regardless of element validity); objects with neither, arbitrary
non-object values and null are not recognized. -/
theorem response_recognition (o : JSValue) :
    isSlackCommandResponse o = some (.bool true) ↔
      ∃ fields, o = .obj fields ∧
        ((∃ s, lookupProp fields keyText = .str s) ∨
          (∃ l, lookupProp fields keyAttachments = .arr l)) := by
  have hno : ¬("number".toList = "object".toList) := by decide
  have hso : ¬("string".toList = "object".toList) := by decide
  cases o with
  | undefined => simp [isSlackCommandResponse, truthy]
  | null => simp [isSlackCommandResponse, truthy]
  | bool b => cases b <;> simp [isSlackCommandResponse, truthy, typeof]
  | num n =>
    by_cases hn : n = 0
    · subst hn; simp [isSlackCommandResponse, truthy]
    · simp [isSlackCommandResponse, truthy, typeof, hn, hno]
  | str s =>
    by_cases hs : s = []
    · subst hs; simp [isSlackCommandResponse, truthy]
    · simp [isSlackCommandResponse, truthy, typeof, hs, hso]
  | arr l =>
    simp [isSlackCommandResponse, truthy, typeof, getProp, JSValue.isArr,
      show ¬(typeof JSValue.undefined = "string".toList) from by decide]
  | obj fields =>
    rw [isSlackCommandResponse_obj]
    by_cases h : typeof (lookupProp fields keyText) = "string".toList
    · rw [if_pos h]
      obtain ⟨s, hs⟩ := typeof_eq_string_iff.mp h
      exact iff_of_true rfl ⟨fields, rfl, .inl ⟨s, hs⟩⟩
    · rw [if_neg h]
      constructor
      · intro hh
        have hb : (lookupProp fields keyAttachments).isArr = true :=
          JSValue.bool.inj (Option.some.inj hh)
        obtain ⟨l, hl⟩ := JSValue.isArr_iff.mp hb
        exact ⟨fields, rfl, .inr ⟨l, hl⟩⟩
      · rintro ⟨fields', hf, hdisj⟩
        cases JSValue.obj.inj hf
        rcases hdisj with ⟨s, hs⟩ | ⟨l, hl⟩
        · exact absurd (typeof_eq_string_iff.mpr ⟨s, hs⟩) h
        · rw [hl]
          rfl

/-- C6: whenever a parse fails, the raised error is the user-facing
ExpectedError (a validation error, not a programming fault) whose message
quotes the offending input text and names the variant that was expected
(the word user, respectively channel, occurs in it, and the two variants'
messages differ on every input); no other error is produced. -/
theorem parse_failure_error (text : Str) :
    (∀ e, SlackUser.cast text = .error e →
        e = .expectedError (userErrorMessage text) ∧
          occursIn text (userErrorMessage text) ∧
          occursIn ("user".toList) (userErrorMessage text)) ∧
    (∀ e, SlackChannel.cast text = .error e →
        e = .expectedError (channelErrorMessage text) ∧
          occursIn text (channelErrorMessage text) ∧
          occursIn ("channel".toList) (channelErrorMessage text)) ∧
    userErrorMessage text ≠ channelErrorMessage text := by
  have husuf : " is not a valid escaped slack ".toList ++ "user".toList = userSuffix := by
    decide
  have hcsuf : " is not a valid escaped slack ".toList ++ "channel".toList = channelSuffix := by
    decide
  refine ⟨?_, ?_, ?_⟩
  · intro e he
    refine ⟨?_, ⟨['"'], '"' :: userSuffix, rfl⟩, ?_⟩
    · cases h : matchMention '@' text with
      | some p =>
        obtain ⟨g1, g2⟩ := p
        rw [SlackUser.cast, h] at he
        exact absurd he (by simp)
      | none =>
        rw [SlackUser.cast, h] at he
        exact (SlackError.expectedError.inj (Except.error.inj he)).symm ▸ rfl
    · refine ⟨'"' :: (text ++ '"' :: " is not a valid escaped slack ".toList), [], ?_⟩
      rw [List.append_nil, userErrorMessage, ← husuf]
      simp
  · intro e he
    refine ⟨?_, ⟨['"'], '"' :: channelSuffix, rfl⟩, ?_⟩
    · cases h : matchMention '#' text with
      | some p =>
        obtain ⟨g1, g2⟩ := p
        rw [SlackChannel.cast, h] at he
        exact absurd he (by simp)
      | none =>
        rw [SlackChannel.cast, h] at he
        exact (SlackError.expectedError.inj (Except.error.inj he)).symm ▸ rfl
    · refine ⟨'"' :: (text ++ '"' :: " is not a valid escaped slack ".toList), [], ?_⟩
      rw [List.append_nil, channelErrorMessage, ← hcsuf]
      simp
  · intro h
    have hlen := congrArg List.length h
    have h1 : userSuffix.length = 34 := by decide
    have h2 : channelSuffix.length = 37 := by decide
    simp [userErrorMessage, channelErrorMessage, h1, h2] at hlen

/-- Witness for the parse-failure theorem at the input x (which matches no
mention pattern). -/
theorem parse_failure_error_witness :
    SlackError.expectedError (userErrorMessage ['x']) =
        .expectedError (userErrorMessage ['x']) ∧
      occursIn ['x'] (userErrorMessage ['x']) ∧
      occursIn ("user".toList) (userErrorMessage ['x']) :=
  (parse_failure_error ['x']).1 (.expectedError (userErrorMessage ['x'])) rfl

/-- C7: context construction and response recognition never raise errors:
construction is a total merge of any field bag (the whole constructed
object is given in closed form, so for the all-absent bag every property
and every declared field propagates as the absent value rather than a
failure), and the recognizer's evaluation always produces a result, never
reaching a throwing property access. -/
theorem construction_recognition_total (opts : ContextOptions) (bag : FieldBag)
    (o : JSValue) :
    SlackCommandContext.make opts bag =
      ⟨fun k => if k = keyUser ∨ k = keyChannel then none else bag k,
        ⟨bag keyUserId, bag keyUserName⟩, ⟨bag keyChannelId, bag keyChannelName⟩⟩ ∧
    (∀ k, (SlackCommandContext.make opts (fun _ => none)).props k = none) ∧
    (SlackCommandContext.make opts (fun _ => none)).user = ⟨none, none⟩ ∧
    (SlackCommandContext.make opts (fun _ => none)).channel = ⟨none, none⟩ ∧
    ∃ r, isSlackCommandResponse o = some r := by
  refine ⟨rfl, fun k => by simp [SlackCommandContext.make], rfl, rfl, ?_⟩
  rcases isSlackCommandResponse_total o with ⟨_, he⟩ | ⟨_, he | he⟩
  · exact ⟨o, he⟩
  · exact ⟨.bool true, he⟩
  · exact ⟨.bool false, he⟩

/-- C8 fails as stated: on the input null the recognizer returns null (the
value of the short-circuiting conjunction), which is neither the boolean
false nor the boolean true. -/
theorem recognizer_null_counterexample :
    isSlackCommandResponse .null = some .null ∧
      some JSValue.null ≠ some (JSValue.bool false) ∧
      some JSValue.null ≠ some (JSValue.bool true) :=
  ⟨rfl, by simp, by simp⟩

/-- C8 (amended): the recognizer never fails; on every truthy input it
returns exactly the boolean true or the boolean false, but on a falsy input
(null, undefined, false, zero, the empty string) it returns that input
value itself - in particular on null it returns null, not the boolean
false. -/
theorem recognizer_result_shape (o : JSValue) :
    isSlackCommandResponse o ≠ none ∧
    (truthy o = true →
      isSlackCommandResponse o = some (.bool true) ∨
        isSlackCommandResponse o = some (.bool false)) ∧
    (truthy o = false → isSlackCommandResponse o = some o) := by
  rcases isSlackCommandResponse_total o with ⟨hf, he⟩ | ⟨ht, he⟩
  · refine ⟨by simp [he], ?_, fun _ => he⟩
    intro hcontra
    rw [hf] at hcontra
    exact Bool.noConfusion hcontra
  · refine ⟨?_, fun _ => he, ?_⟩
    · rcases he with h | h <;> simp [h]
    · intro hcontra
      rw [ht] at hcontra
      exact Bool.noConfusion hcontra

/-- Witness for the recognizer result-shape theorem at the truthy input
consisting of the empty object. -/
theorem recognizer_result_shape_witness :
    isSlackCommandResponse (.obj []) = some (.bool true) ∨
      isSlackCommandResponse (.obj []) = some (.bool false) :=
  (recognizer_result_shape (.obj [])).2.1 rfl

/-- C9 is violated by the code: the field merge copies every bag entry onto
the context, recognized or not. At the failing input - the bag holding the
token field and the unrecognized key z with value g - the constructed
context carries the property z with value g, and it differs from the
context constructed from the same bag without the key z, so an unrecognized
bag entry does affect the constructed value. -/
theorem extra_keys_copied :
    (SlackCommandContext.make ⟨⟩
        (fun k => if k = keyToken then some ['t']
          else if k = ['z'] then some ['g'] else none)).props ['z'] = some ['g'] ∧
      SlackCommandContext.make ⟨⟩
          (fun k => if k = keyToken then some ['t']
            else if k = ['z'] then some ['g'] else none) ≠
        SlackCommandContext.make ⟨⟩ (fun k => if k = keyToken then some ['t'] else none) := by
  refine ⟨rfl, ?_⟩
  intro h
  have h1 : (SlackCommandContext.make ⟨⟩
      (fun k => if k = keyToken then some ['t']
        else if k = ['z'] then some ['g'] else none)).props ['z'] = some ['g'] := rfl
  have h2 : (SlackCommandContext.make ⟨⟩
      (fun k => if k = keyToken then some ['t'] else none)).props ['z'] = none := rfl
  rw [h, h2] at h1
  exact Option.noConfusion h1
